import Mathlib

/-!
Verification of the thread-safe database manager of `gui_qr_print_service.py`
(class `ThreadSafeDatabaseManager`, also duplicated in `test_thread_safety.py`).

The embedding has two layers:

* a sequential layer: the database state (`DB`), the query algebra covering the
  SQL statements the repository issues (`Query`), their execution (`exec`), and
  the worker's per-request dispatch (`worker_handle`, from `_worker` lines
  39-93);

* a concurrent layer: a small-step machine (`Sys`, `step`, `run`) with the
  FIFO operation queue, the single shared result queue, any number of callers
  executing `_execute_operation` (enqueue, then dequeue-or-timeout), and the
  worker loop with its shutdown sentinel.
-/

/-- One row of the `print_history` table (schema created by the worker's
`init_db` branch, source lines 44-53). -/
structure Row where
  id : Nat
  url : String
  print_type : String
  qr_data : String
  timestamp : Nat
  status : String
deriving Repr, DecidableEq

/-- The state of the SQLite database file: whether the `print_history` table
exists, its rows, the next AUTOINCREMENT id (SQLite assigns ids starting
from 1), and the store clock used for the `timestamp DATETIME DEFAULT
CURRENT_TIMESTAMP` column. -/
structure DB where
  table_exists : Bool
  rows : List Row
  next_id : Nat
  clock : Nat
deriving Repr, DecidableEq

/-- The SQL statements the repository passes to the manager, plus a
constructor for a malformed statement and one for Python `None` (the
`query` slot of the `init_db` request, source line 26).

* `insert_history url pt qd st` : `INSERT INTO print_history (url,
  print_type, qr_data[, status]) VALUES (...)`; `st = none` means the
  statement does not mention the `status` column, so the schema default
  `'completed'` applies (source line 51).
* `update_status s i` : `UPDATE print_history SET status = s WHERE id = i`.
* `delete_by_id i` : `DELETE FROM print_history WHERE id = i`.
* `select_all` : `SELECT * FROM print_history`.
* `malformed msg` : a statement SQLite rejects; `msg` is the exception text.
* `none_query` : Python `None` in the query slot. -/
inductive Query where
  | insert_history (url : String) (print_type : String) (qr_data : String)
      (status : Option String)
  | update_status (new_status : String) (id : Nat)
  | delete_by_id (id : Nat)
  | select_all
  | malformed (msg : String)
  | none_query
deriving Repr, DecidableEq

/-- The `op_type` tag of an operation request tuple (source line 39). -/
inductive OpType where
  | init_db
  | insert
  | update
  | delete
  | select
  | select_one
deriving Repr, DecidableEq

/-- An operation request as placed on `operation_queue`:
`(op_type, query, params)`, with the query and its bound parameters fused. -/
abbrev Request := OpType × Query

/-- The state of a `sqlite3` cursor after `cursor.execute`: `lastrowid` is
set only by a successful INSERT, `rowcount` is the number of affected rows
for UPDATE/DELETE and -1 for other statements, `fetched` is the result set
available to `fetchall`/`fetchone`. -/
structure Cursor where
  lastrowid : Option Nat
  rowcount : Int
  fetched : List Row
deriving Repr, DecidableEq

/-- `cursor.execute(query, params)`: either an exception message or the new
database state together with the cursor state. -/
def exec (q : Query) (db : DB) : Except String (DB × Cursor) :=
  match q with
  | Query.malformed msg => Except.error msg
  | Query.none_query => Except.error "execute argument 1 must be str, not None"
  | q =>
    if db.table_exists then
      match q with
      | Query.insert_history url pt qd st =>
        let r : Row := { id := db.next_id, url := url, print_type := pt,
                         qr_data := qd, timestamp := db.clock,
                         status := st.getD "completed" }
        Except.ok ({ db with rows := db.rows ++ [r], next_id := db.next_id + 1 },
                   { lastrowid := some r.id, rowcount := 1, fetched := [] })
      | Query.update_status s i =>
        let f : Row → Row := fun r => if r.id == i then { r with status := s } else r
        Except.ok ({ db with rows := db.rows.map f },
                   { lastrowid := none,
                     rowcount := (db.rows.countP (fun r => r.id == i) : Int),
                     fetched := [] })
      | Query.delete_by_id i =>
        Except.ok ({ db with rows := db.rows.filter (fun r => !(r.id == i)) },
                   { lastrowid := none,
                     rowcount := (db.rows.countP (fun r => r.id == i) : Int),
                     fetched := [] })
      | Query.select_all =>
        Except.ok (db, { lastrowid := none, rowcount := -1, fetched := db.rows })
      | _ => Except.error "unreachable"
    else Except.error "no such table: print_history"

/-- A result payload as put on `result_queue` by the worker: Python `None`,
`cursor.lastrowid`, `cursor.rowcount`, `fetchall()`, or `fetchone()`. -/
inductive Value where
  | vnone
  | vnat (n : Nat)
  | vint (n : Int)
  | vrows (rs : List Row)
  | vrow (r : Option Row)
deriving Repr, DecidableEq

/-- A result message `(status, payload)` as put on `result_queue`
(source lines 55-88). -/
inductive DbResult where
  | success (v : Value)
  | error (msg : String)
deriving Repr, DecidableEq

/-- One iteration of the worker's dispatch on a dequeued operation
(source lines 39-93): runs the operation against the connection and
produces the updated connection plus the result message it puts on
`result_queue`.  Failures of `exec` are caught (lines 87-88) and reported
as `error` results; the connection state is whatever the failed call left
(for our query algebra, unchanged). -/
def worker_handle (conn : DB) (req : Request) : DB × DbResult :=
  match req with
  | (OpType.init_db, _) =>
    -- CREATE TABLE IF NOT EXISTS print_history ... ; commit (lines 42-55)
    ({ conn with table_exists := true }, DbResult.success Value.vnone)
  | (OpType.insert, q) =>
    match exec q conn with
    | Except.ok (c, cur) =>
      (c, DbResult.success (match cur.lastrowid with
            | some n => Value.vnat n
            | none => Value.vnone))
    | Except.error e => (conn, DbResult.error e)
  | (OpType.update, q) =>
    match exec q conn with
    | Except.ok (c, cur) => (c, DbResult.success (Value.vint cur.rowcount))
    | Except.error e => (conn, DbResult.error e)
  | (OpType.delete, q) =>
    match exec q conn with
    | Except.ok (c, cur) => (c, DbResult.success (Value.vint cur.rowcount))
    | Except.error e => (conn, DbResult.error e)
  | (OpType.select, q) =>
    match exec q conn with
    | Except.ok (c, cur) => (c, DbResult.success (Value.vrows cur.fetched))
    | Except.error e => (conn, DbResult.error e)
  | (OpType.select_one, q) =>
    match exec q conn with
    | Except.ok (c, cur) => (c, DbResult.success (Value.vrow cur.fetched.head?))
    | Except.error e => (conn, DbResult.error e)

/-- What a Gateway call (`_execute_operation`) turns a collected result
into: a returned payload, a raised `Exception("Database error: ...")`, or a
raised `Exception("Database operation timed out")` on `queue.Empty`
(source lines 101-107). -/
inductive GatewayResult where
  | ok (v : Value)
  | db_error (msg : String)
  | timed_out
deriving Repr, DecidableEq

/-- `_execute_operation`, lines 102-105: map a collected result message to
the caller-visible outcome. -/
def gateway_of_result : DbResult → GatewayResult
  | DbResult.success v => GatewayResult.ok v
  | DbResult.error m => GatewayResult.db_error ("Database error: " ++ m)

/-- The default `timeout` parameter of `_execute_operation` (line 97). -/
def execute_default_timeout : Nat := 5

/-- The `timeout` passed to `worker_thread.join` in `close` (line 132). -/
def close_join_timeout : Nat := 2

/-- The Dispatcher's insert request in `save_to_history` (source lines
825-828): it supplies the `status` column explicitly as `'processing'`. -/
def save_to_history_request (url print_type qr_data : String) : Request :=
  (OpType.insert,
   Query.insert_history url print_type qr_data (some "processing"))

/-- Well-formedness of the store: every row id was assigned below the next
AUTOINCREMENT value, and ids are pairwise distinct. -/
def DB.wf (db : DB) : Prop :=
  (∀ r ∈ db.rows, r.id < db.next_id) ∧ (db.rows.map Row.id).Nodup

/-- The database state right after `__init__` ran the `init_db` request on
a fresh file. -/
def db_init : DB := { table_exists := true, rows := [], next_id := 1, clock := 0 }

/-- A store holding a single job record with id 1 (used in closed
instances). -/
def db_one : DB :=
  { table_exists := true,
    rows := [{ id := 1, url := "u", print_type := "label", qr_data := "d",
               timestamp := 0, status := "processing" }],
    next_id := 2, clock := 0 }

/-!
## The concurrent layer

Multiple caller threads share one `operation_queue` and one `result_queue`
(`__init__`, lines 20-21).  A Gateway call (`_execute_operation`) is two
atomic interactions with the queues: `operation_queue.put(...)` and then
`result_queue.get(timeout)`; between the two, other threads may act.  The
worker repeatedly takes the front request and pushes its result; the
sentinel `None` (pushed by `close`, line 131) makes it close the
connection and terminate.  `hist` is a ghost log of what the worker did,
used to state trace properties.
-/

/-- The state of one caller thread: whether it is between its `put` and its
`get`, and the outcomes of its completed Gateway calls, in order. -/
structure Caller where
  waiting : Bool
  results : List GatewayResult
deriving Repr, DecidableEq

/-- A caller thread that has not started a call. -/
def Caller.idle : Caller := { waiting := false, results := [] }

/-- Ghost record of one worker-loop iteration. -/
inductive WorkEvent where
  | executed (req : Request) (res : DbResult)
  | shutdown
deriving Repr, DecidableEq

/-- Global state: the two shared queues (front = next to dequeue), the
worker-owned connection, whether the worker thread is still in its loop,
whether it has closed the connection, the callers, and the ghost log. -/
structure Sys where
  op_queue : List (Option Request)
  result_queue : List DbResult
  conn : DB
  worker_alive : Bool
  conn_closed : Bool
  callers : List Caller
  hist : List WorkEvent
deriving Repr, DecidableEq

/-- Initial state: `n` idle callers, empty queues, live worker holding the
connection `db`. -/
def Sys.init (db : DB) (n : Nat) : Sys :=
  { op_queue := [], result_queue := [], conn := db, worker_alive := true,
    conn_closed := false, callers := List.replicate n Caller.idle, hist := [] }

/-- An atomic event of the system.  `put tid req` and `take tid` are the two
halves of caller `tid`'s `_execute_operation`; `give_up tid` is its
`queue.Empty` timeout (it can fire only while its reply has not arrived, so
only when the shared result queue is empty); `put_sentinel` is `close`
enqueuing `None`; `work` is one iteration of the worker loop. -/
inductive Label where
  | put (tid : Nat) (req : Request)
  | take (tid : Nat)
  | give_up (tid : Nat)
  | put_sentinel
  | work
deriving Repr, DecidableEq

/-- One atomic step; `none` when the event is not enabled in `s`. -/
def step (s : Sys) (l : Label) : Option Sys :=
  match l with
  | Label.put tid req =>
    match s.callers[tid]? with
    | some c =>
      if c.waiting then none
      else some { s with op_queue := s.op_queue ++ [some req],
                         callers := s.callers.set tid { c with waiting := true } }
    | none => none
  | Label.take tid =>
    match s.callers[tid]?, s.result_queue with
    | some c, r :: rest =>
      if c.waiting then
        some { s with result_queue := rest,
                      callers := s.callers.set tid
                        { waiting := false,
                          results := c.results ++ [gateway_of_result r] } }
      else none
    | _, _ => none
  | Label.give_up tid =>
    match s.callers[tid]? with
    | some c =>
      if c.waiting ∧ s.result_queue = [] then
        some { s with callers := s.callers.set tid
                        { waiting := false,
                          results := c.results ++ [GatewayResult.timed_out] } }
      else none
    | none => none
  | Label.put_sentinel =>
    some { s with op_queue := s.op_queue ++ [none] }
  | Label.work =>
    if s.worker_alive then
      match s.op_queue with
      | some req :: rest =>
        let p := worker_handle s.conn req
        some { s with op_queue := rest, conn := p.1,
                      result_queue := s.result_queue ++ [p.2],
                      hist := s.hist ++ [WorkEvent.executed req p.2] }
      | none :: rest =>
        some { s with op_queue := rest, worker_alive := false,
                      conn_closed := true,
                      hist := s.hist ++ [WorkEvent.shutdown] }
      | [] => none
    else none

/-- Run a trace of events from a state; `none` when some event is not
enabled where it occurs. -/
def run (s : Sys) : List Label → Option Sys
  | [] => some s
  | l :: tr => match step s l with
    | some s1 => run s1 tr
    | none => none

/-- The requests a trace enqueues, in queue order (`none` = sentinel). -/
def enqueued_reqs (tr : List Label) : List (Option Request) :=
  tr.filterMap (fun l => match l with
    | Label.put _ req => some (some req)
    | Label.put_sentinel => some none
    | _ => none)

/-- The requests the worker has dequeued and handled, in execution order
(`none` = sentinel). -/
def executed_reqs (h : List WorkEvent) : List (Option Request) :=
  h.map (fun e => match e with
    | WorkEvent.executed req _ => some req
    | WorkEvent.shutdown => none)

/-- How many worker-loop iterations were insert requests answered with
`success`. -/
def insert_successes (h : List WorkEvent) : Nat :=
  h.countP (fun e => match e with
    | WorkEvent.executed (OpType.insert, _) (DbResult.success _) => true
    | _ => false)

/-- Whether a queued entry is an insert request through the Gateway's
`insert` method carrying an INSERT statement (as every caller in the
repository does). -/
def is_insert_req : Option Request → Bool
  | some (OpType.insert, Query.insert_history _ _ _ _) => true
  | _ => false

/-- How many of caller `i`'s completed calls returned a payload
(`GatewayResult.ok`). -/
def ok_results (s : Sys) (i : Nat) : Nat :=
  match s.callers[i]? with
  | some c => c.results.countP (fun r => match r with
      | GatewayResult.ok _ => true
      | _ => false)
  | none => 0

/-- Traces in which every caller submission goes through the Gateway's
`insert` method with an INSERT statement (the setting of property P1). -/
def insert_only_label : Label → Prop := fun l =>
  match l with
  | Label.put _ req => is_insert_req (some req) = true
  | _ => True

/-- Inductive invariant for the serialization property: a well-formed
store whose row count equals the number of successful inserts the worker
has performed, with only insert requests (or the sentinel) queued. -/
def c3_inv (s : Sys) : Prop :=
  s.conn.wf ∧ s.conn.rows.length = insert_successes s.hist ∧
  ∀ o ∈ s.op_queue, is_insert_req o = true ∨ o = none

/-!
## Preservation lemmas for the sequential layer
-/

/-- Successful statement execution preserves store well-formedness. -/
theorem exec_wf {db c : DB} {q : Query} {cur : Cursor} (hwf : db.wf)
    (h : exec q db = Except.ok (c, cur)) : c.wf := by
  obtain ⟨hlt, hnd⟩ := hwf
  cases q with
  | insert_history url pt qd st =>
    simp only [exec] at h
    by_cases ht : db.table_exists
    · simp only [ht, if_true] at h
      cases h
      constructor
      · intro r hr
        simp only [List.mem_append, List.mem_singleton] at hr
        rcases hr with hr | hr
        · exact Nat.lt_succ_of_lt (hlt r hr)
        · subst hr; exact Nat.lt_succ_self _
      · simp only [List.map_append, List.map_cons, List.map_nil]
        rw [List.nodup_append]
        refine ⟨hnd, List.nodup_singleton _, ?_⟩
        intro a ha hb
        simp only [List.mem_singleton] at hb
        subst hb
        simp only [List.mem_map] at ha
        obtain ⟨r, hr, hid⟩ := ha
        exact absurd hid (Nat.ne_of_lt (hlt r hr))
    · simp [ht] at h
  | update_status s i =>
    simp only [exec] at h
    by_cases ht : db.table_exists
    · simp only [ht, if_true] at h
      cases h
      have hid : ∀ r : Row,
          Row.id (if r.id == i then { r with status := s } else r) = r.id := by
        intro r; by_cases hri : r.id == i <;> simp [hri]
      constructor
      · intro r hr
        simp only [List.mem_map] at hr
        obtain ⟨r0, hr0, hfr⟩ := hr
        subst hfr
        rw [hid r0]
        exact hlt r0 hr0
      · rw [List.map_map]
        have : Row.id ∘ (fun r : Row => if r.id == i then { r with status := s } else r)
            = Row.id := by
          funext r; exact hid r
        rw [this]
        exact hnd
    · simp [ht] at h
  | delete_by_id i =>
    simp only [exec] at h
    by_cases ht : db.table_exists
    · simp only [ht, if_true] at h
      cases h
      constructor
      · intro r hr
        exact hlt r (List.mem_of_mem_filter hr)
      · exact List.Nodup.sublist (List.Sublist.map _ (List.filter_sublist _)) hnd
    · simp [ht] at h
  | select_all =>
    simp only [exec] at h
    by_cases ht : db.table_exists
    · simp only [ht, if_true] at h
      cases h
      exact ⟨hlt, hnd⟩
    · simp [ht] at h
  | malformed msg => simp [exec] at h
  | none_query => simp [exec] at h

/-- The worker's dispatch preserves store well-formedness. -/
theorem worker_handle_wf {db : DB} (req : Request) (hwf : db.wf) :
    (worker_handle db req).1.wf := by
  obtain ⟨ot, q⟩ := req
  cases ot <;> simp only [worker_handle]
  case init_db => exact ⟨hwf.1, hwf.2⟩
  all_goals
    rcases hx : exec q db with e | p
    · simp [hx]; exact hwf
    · obtain ⟨c, cur⟩ := p
      simp [hx]
      exact exec_wf hwf hx

/-- In a well-formed store, the number of rows matching an id equals 1 or 0
according to whether a row with that id exists. -/
theorem countP_id_of_wf {db : DB} (i : Nat) (hwf : db.wf) :
    db.rows.countP (fun r => r.id == i)
      = if ∃ r ∈ db.rows, r.id = i then 1 else 0 := by
  have hcnt : db.rows.countP (fun r => r.id == i) = (db.rows.map Row.id).count i := by
    rw [List.count, List.countP_map]
    rfl
  rw [hcnt]
  by_cases hex : ∃ r ∈ db.rows, r.id = i
  · rw [if_pos hex]
    obtain ⟨r, hr, hri⟩ := hex
    exact List.count_eq_one_of_mem hwf.2 (List.mem_map.mpr ⟨r, hr, hri⟩)
  · rw [if_neg hex]
    rw [List.count_eq_zero]
    intro hmem
    obtain ⟨r, hr, hri⟩ := List.mem_map.mp hmem
    exact hex ⟨r, hr, hri⟩

/-- C1: a successfully executed insert appends exactly one row, whose id is
the store's next AUTOINCREMENT value, and the worker replies `success`
carrying exactly that id; the Gateway returns that payload to the caller. -/
theorem insert_returns_new_row_id (db : DB) (url pt qd : String)
    (st : Option String) (h : db.table_exists = true) :
    ∃ row : Row,
      (worker_handle db (OpType.insert, Query.insert_history url pt qd st)).1.rows
        = db.rows ++ [row] ∧
      (worker_handle db (OpType.insert, Query.insert_history url pt qd st)).2
        = DbResult.success (Value.vnat row.id) ∧
      row.id = db.next_id ∧
      gateway_of_result
          (worker_handle db (OpType.insert, Query.insert_history url pt qd st)).2
        = GatewayResult.ok (Value.vnat row.id) := by
  refine ⟨{ id := db.next_id, url := url, print_type := pt, qr_data := qd,
            timestamp := db.clock, status := st.getD "completed" },
          ?_, ?_, rfl, ?_⟩ <;>
    simp [worker_handle, exec, h, gateway_of_result]

/-- Closed instance of `insert_returns_new_row_id`. -/
theorem insert_returns_new_row_id_witness :
    ∃ row : Row,
      (worker_handle db_init
          (OpType.insert, Query.insert_history "u" "label" "d" none)).1.rows
        = db_init.rows ++ [row] ∧
      (worker_handle db_init
          (OpType.insert, Query.insert_history "u" "label" "d" none)).2
        = DbResult.success (Value.vnat row.id) ∧
      row.id = db_init.next_id ∧
      gateway_of_result
          (worker_handle db_init
            (OpType.insert, Query.insert_history "u" "label" "d" none)).2
        = GatewayResult.ok (Value.vnat row.id) :=
  insert_returns_new_row_id db_init "u" "label" "d" none rfl

/-- C7: a successfully executed update or delete replies `success` carrying
the number of affected rows; in a well-formed store, deleting an existing
id reports affected-count 1 and deleting an unknown id reports
affected-count 0 as a `success`, not an error. -/
theorem update_delete_return_affected_count (db : DB) (i : Nat) (s : String)
    (ht : db.table_exists = true) (hwf : db.wf) :
    ((worker_handle db (OpType.update, Query.update_status s i)).2
       = DbResult.success
           (Value.vint (db.rows.countP (fun r => r.id == i)))) ∧
    ((worker_handle db (OpType.delete, Query.delete_by_id i)).2
       = DbResult.success
           (Value.vint (db.rows.countP (fun r => r.id == i)))) ∧
    ((∃ r ∈ db.rows, r.id = i) →
       (worker_handle db (OpType.delete, Query.delete_by_id i)).2
         = DbResult.success (Value.vint 1)) ∧
    ((∀ r ∈ db.rows, r.id ≠ i) →
       (worker_handle db (OpType.delete, Query.delete_by_id i)).2
         = DbResult.success (Value.vint 0)) := by
  have hupd : (worker_handle db (OpType.update, Query.update_status s i)).2
      = DbResult.success (Value.vint (db.rows.countP (fun r => r.id == i))) := by
    simp [worker_handle, exec, ht]
  have hdel : (worker_handle db (OpType.delete, Query.delete_by_id i)).2
      = DbResult.success (Value.vint (db.rows.countP (fun r => r.id == i))) := by
    simp [worker_handle, exec, ht]
  refine ⟨hupd, hdel, ?_, ?_⟩
  · intro hex
    rw [hdel, countP_id_of_wf i hwf, if_pos hex]
    norm_num
  · intro hnone
    rw [hdel, countP_id_of_wf i hwf,
        if_neg (fun hex => by obtain ⟨r, hr, hri⟩ := hex; exact hnone r hr hri)]
    norm_num

/-- Closed instance of `update_delete_return_affected_count`: deleting the
one existing id reports affected-count 1. -/
theorem update_delete_return_affected_count_witness :
    ((worker_handle db_one (OpType.update, Query.update_status "completed" 1)).2
       = DbResult.success
           (Value.vint (db_one.rows.countP (fun r => r.id == 1)))) ∧
    ((worker_handle db_one (OpType.delete, Query.delete_by_id 1)).2
       = DbResult.success (Value.vint 1)) :=
  have h := update_delete_return_affected_count db_one 1 "completed" rfl
    (by constructor <;> decide)
  ⟨h.1, h.2.2.1 (by decide)⟩

/-- C8: the `init_db` operation replies `success` with no payload, creates
the table if absent without touching any rows, and is idempotent: a second
invocation (and hence any number of further invocations) leaves the store
unchanged and again replies `success` with no payload. -/
theorem init_db_idempotent (db : DB) (q q2 : Query) :
    (worker_handle db (OpType.init_db, q)).2 = DbResult.success Value.vnone ∧
    (worker_handle db (OpType.init_db, q)).1 = { db with table_exists := true } ∧
    (worker_handle db (OpType.init_db, q)).1.rows = db.rows ∧
    worker_handle (worker_handle db (OpType.init_db, q)).1 (OpType.init_db, q2)
      = ((worker_handle db (OpType.init_db, q)).1,
         DbResult.success Value.vnone) ∧
    (∀ n : Nat,
       (fun d => (worker_handle d (OpType.init_db, q)).1)^[n + 1] db
         = { db with table_exists := true }) := by
  refine ⟨rfl, rfl, rfl, rfl, ?_⟩
  intro n
  induction n with
  | zero => rfl
  | succ k ih =>
    rw [Function.iterate_succ_apply', ih]
    rfl

/-- Closed instance of `init_db_idempotent`. -/
theorem init_db_idempotent_witness :
    (worker_handle db_init (OpType.init_db, Query.none_query)).2
      = DbResult.success Value.vnone ∧
    (fun d => (worker_handle d (OpType.init_db, Query.none_query)).1)^[4] db_init
      = { db_init with table_exists := true } :=
  ⟨(init_db_idempotent db_init Query.none_query Query.none_query).1,
   (init_db_idempotent db_init Query.none_query Query.none_query).2.2.2.2 3⟩

/-- C10: an insert that does not mention the `status` column stores the
schema default `'completed'` (not `'processing'`), while the Dispatcher's
`save_to_history` insert supplies `'processing'` explicitly. -/
theorem insert_default_status_completed (db : DB) (u p q : String)
    (ht : db.table_exists = true) :
    (∃ row : Row,
       (worker_handle db (OpType.insert, Query.insert_history u p q none)).1.rows
         = db.rows ++ [row] ∧
       row.status = "completed" ∧ row.status ≠ "processing") ∧
    (∃ row : Row,
       (worker_handle db (save_to_history_request u p q)).1.rows
         = db.rows ++ [row] ∧ row.status = "processing") ∧
    save_to_history_request u p q
      = (OpType.insert, Query.insert_history u p q (some "processing")) := by
  refine ⟨⟨{ id := db.next_id, url := u, print_type := p, qr_data := q,
             timestamp := db.clock, status := "completed" }, ?_, rfl, ?_⟩,
          ⟨{ id := db.next_id, url := u, print_type := p, qr_data := q,
             timestamp := db.clock, status := "processing" }, ?_, rfl⟩, rfl⟩
  · simp [worker_handle, exec, ht]
  · show "completed" ≠ "processing"
    decide
  · simp [worker_handle, save_to_history_request, exec, ht]

/-- Closed instance of `insert_default_status_completed`. -/
theorem insert_default_status_completed_witness :
    (∃ row : Row,
       (worker_handle db_init
           (OpType.insert, Query.insert_history "u" "label" "d" none)).1.rows
         = db_init.rows ++ [row] ∧
       row.status = "completed" ∧ row.status ≠ "processing") ∧
    (∃ row : Row,
       (worker_handle db_init (save_to_history_request "u" "label" "d")).1.rows
         = db_init.rows ++ [row] ∧ row.status = "processing") ∧
    save_to_history_request "u" "label" "d"
      = (OpType.insert,
         Query.insert_history "u" "label" "d" (some "processing")) :=
  insert_default_status_completed db_init "u" "label" "d" rfl

/-- C2: a failing operation (here a malformed query from caller 0) is
caught by the worker and answered with an `error` result that the Gateway
surfaces as a `Database error: ...` failure; the worker thread stays in its
loop, and a subsequent well-formed operation from a different thread
(caller 1's insert) still succeeds with its proper payload. -/
theorem error_isolation (db : DB) (m u p d : String) (st : Option String)
    (ht : db.table_exists = true) :
    ∃ s : Sys,
      run (Sys.init db 2)
        [Label.put 0 (OpType.select, Query.malformed m), Label.work,
         Label.take 0,
         Label.put 1 (OpType.insert, Query.insert_history u p d st), Label.work,
         Label.take 1] = some s ∧
      (s.callers[0]?).map Caller.results
        = some [GatewayResult.db_error ("Database error: " ++ m)] ∧
      (s.callers[1]?).map Caller.results
        = some [GatewayResult.ok (Value.vnat db.next_id)] ∧
      s.worker_alive = true ∧
      (∃ row : Row, s.conn.rows = db.rows ++ [row]) := by
  refine ⟨_, rfl, ?_, ?_, ?_, ?_⟩ <;>
    simp [run, step, Sys.init, worker_handle, exec, ht, gateway_of_result,
          Caller.idle, List.replicate]

/-- Closed instance of `error_isolation`. -/
theorem error_isolation_witness :
    ∃ s : Sys,
      run (Sys.init db_init 2)
        [Label.put 0 (OpType.select, Query.malformed "syntax error"), Label.work,
         Label.take 0,
         Label.put 1 (OpType.insert, Query.insert_history "u" "label" "d" none),
         Label.work, Label.take 1] = some s ∧
      (s.callers[0]?).map Caller.results
        = some [GatewayResult.db_error ("Database error: " ++ "syntax error")] ∧
      (s.callers[1]?).map Caller.results
        = some [GatewayResult.ok (Value.vnat db_init.next_id)] ∧
      s.worker_alive = true ∧
      (∃ row : Row, s.conn.rows = db_init.rows ++ [row]) :=
  error_isolation db_init "syntax error" "u" "label" "d" none rfl

/-- C5: with the single shared result queue and no per-request correlation,
there is an interleaving of two concurrent Gateway calls in which caller 1
dequeues the reply produced for caller 0's request (and caller 0 then gets
caller 1's): caller 1 submitted an insert but receives the select's row
set, which differs from the reply the worker produced for its own
request. -/
theorem shared_result_queue_misdelivery :
    ∃ s : Sys,
      run (Sys.init db_init 2)
        [Label.put 0 (OpType.select, Query.select_all),
         Label.put 1 (OpType.insert, Query.insert_history "u" "label" "d" none),
         Label.work, Label.work, Label.take 1, Label.take 0] = some s ∧
      s.hist
        = [WorkEvent.executed (OpType.select, Query.select_all)
             (DbResult.success (Value.vrows [])),
           WorkEvent.executed
             (OpType.insert, Query.insert_history "u" "label" "d" none)
             (DbResult.success (Value.vnat 1))] ∧
      (s.callers[1]?).map Caller.results
        = some [gateway_of_result (DbResult.success (Value.vrows []))] ∧
      (s.callers[0]?).map Caller.results
        = some [gateway_of_result (DbResult.success (Value.vnat 1))] ∧
      gateway_of_result (DbResult.success (Value.vrows []))
        ≠ gateway_of_result (DbResult.success (Value.vnat 1)) := by
  refine ⟨_, rfl, ?_, ?_, ?_, ?_⟩ <;> decide

/-- C6 counterexample: after a caller's Gateway call times out, the
abandoned request's reply is still pushed onto the single shared result
queue, and the caller's next call dequeues that stale reply as its own
answer.  Concretely: the only caller submits an insert, times out, the
worker then executes the insert (reply `success 1`); the caller's next call
(a select) collects `success 1` while its own select request is still
sitting unexecuted on the operation queue — the subsequent call is
corrupted by the abandoned request. -/
theorem timeout_corrupts_next_call_cex :
    ∃ s : Sys,
      run (Sys.init db_init 1)
        [Label.put 0 (OpType.insert, Query.insert_history "u" "label" "d" none),
         Label.give_up 0, Label.work,
         Label.put 0 (OpType.select, Query.select_all), Label.take 0]
        = some s ∧
      (s.callers[0]?).map Caller.results
        = some [GatewayResult.timed_out,
                gateway_of_result (DbResult.success (Value.vnat 1))] ∧
      s.hist = [WorkEvent.executed
                  (OpType.insert, Query.insert_history "u" "label" "d" none)
                  (DbResult.success (Value.vnat 1))] ∧
      s.op_queue = [some (OpType.select, Query.select_all)] := by
  refine ⟨_, rfl, ?_, ?_, ?_⟩ <;> decide

/-- C6 amended: a Gateway call whose reply has not arrived gives up with a
`Timeout` failure (the `_execute_operation` default timeout is 5 time
units); however the abandoned request's late reply remains on the shared
result queue, and a subsequent call can dequeue it as its own answer, so
subsequent calls are not protected from the abandoned request. -/
theorem timeout_yields_timeout_error (s : Sys) (tid : Nat) (c : Caller)
    (hc : s.callers[tid]? = some c) (hw : c.waiting = true)
    (he : s.result_queue = []) :
    step s (Label.give_up tid)
      = some { s with callers := s.callers.set tid { waiting := false, results := c.results ++ [GatewayResult.timed_out] } } ∧
    execute_default_timeout = 5 ∧
    (∃ s2 : Sys,
       run (Sys.init db_init 1)
         [Label.put 0 (OpType.insert, Query.insert_history "u" "label" "d" none),
          Label.give_up 0, Label.work,
          Label.put 0 (OpType.select, Query.select_all), Label.take 0]
         = some s2 ∧
       (s2.callers[0]?).map Caller.results
         = some [GatewayResult.timed_out,
                 gateway_of_result (DbResult.success (Value.vnat 1))] ∧
       s2.op_queue = [some (OpType.select, Query.select_all)]) := by
  refine ⟨?_, rfl, ⟨_, rfl, by decide, by decide⟩⟩
  simp [step, hc, hw, he]

/-- Closed instance of `timeout_yields_timeout_error`. -/
theorem timeout_yields_timeout_error_witness :
    (step { op_queue := [], result_queue := [], conn := db_init,
            worker_alive := true, conn_closed := false,
            callers := [{ waiting := true, results := [] }], hist := [] }
          (Label.give_up 0)
        = some { op_queue := [], result_queue := [], conn := db_init,
                 worker_alive := true, conn_closed := false,
                 callers := [{ waiting := false,
                               results := [GatewayResult.timed_out] }],
                 hist := [] }) ∧
    execute_default_timeout = 5 ∧
    (∃ s2 : Sys,
       run (Sys.init db_init 1)
         [Label.put 0 (OpType.insert, Query.insert_history "u" "label" "d" none),
          Label.give_up 0, Label.work,
          Label.put 0 (OpType.select, Query.select_all), Label.take 0]
         = some s2 ∧
       (s2.callers[0]?).map Caller.results
         = some [GatewayResult.timed_out,
                 gateway_of_result (DbResult.success (Value.vnat 1))] ∧
       s2.op_queue = [some (OpType.select, Query.select_all)]) :=
  timeout_yields_timeout_error
    { op_queue := [], result_queue := [], conn := db_init,
      worker_alive := true, conn_closed := false,
      callers := [{ waiting := true, results := [] }], hist := [] }
    0 { waiting := true, results := [] } rfl rfl rfl

/-- Invariant preservation along a run, for invariants `P` preserved by
every step whose label satisfies `L`. -/
theorem run_preserves (P : Sys → Prop) (L : Label → Prop)
    (hstep : ∀ s l s1, L l → P s → step s l = some s1 → P s1) :
    ∀ tr s0 s, (∀ l ∈ tr, L l) → P s0 → run s0 tr = some s → P s := by
  intro tr
  induction tr with
  | nil =>
    intro s0 s _ hP hrun
    simp only [run, Option.some.injEq] at hrun
    subst hrun
    exact hP
  | cons l tr ih =>
    intro s0 s hl hP hrun
    simp only [run] at hrun
    rcases hs1 : step s0 l with _ | s1 <;> rw [hs1] at hrun
    · cases hrun
    · exact ih s1 s (fun x hx => hl x (List.mem_cons_of_mem _ hx))
        (hstep s0 l s1 (hl l (List.mem_cons_self _ _)) hP hs1) hrun

/-- One step keeps the FIFO accounting: what the worker has executed
followed by what is still queued equals what was there before plus what
the step enqueued. -/
theorem step_queue_order {s0 s1 : Sys} {l : Label} (h : step s0 l = some s1) :
    executed_reqs s1.hist ++ s1.op_queue
      = (executed_reqs s0.hist ++ s0.op_queue) ++ enqueued_reqs [l] := by
  cases l with
  | put tid req =>
    simp only [step] at h
    split at h
    · split at h
      · cases h
      · cases h
        simp [executed_reqs, enqueued_reqs, List.append_assoc]
    · cases h
  | take tid =>
    simp only [step] at h
    split at h
    · split at h
      · cases h
        simp [executed_reqs, enqueued_reqs]
      · cases h
    · cases h
  | give_up tid =>
    simp only [step] at h
    split at h
    · split at h
      · cases h
        simp [executed_reqs, enqueued_reqs]
      · cases h
    · cases h
  | put_sentinel =>
    simp only [step, Option.some.injEq] at h
    subst h
    simp [executed_reqs, enqueued_reqs, List.append_assoc]
  | work =>
    simp only [step] at h
    split at h
    · split at h
      next req rest heq =>
        cases h
        simp [executed_reqs, enqueued_reqs, heq, List.append_assoc]
      next rest heq =>
        cases h
        simp [executed_reqs, enqueued_reqs, heq, List.append_assoc]
      next => cases h
    · cases h

/-- Along any run, what the worker has executed followed by what is still
queued equals the initial backlog plus everything the trace enqueued: the
worker serves requests first-in first-out, with no reordering. -/
theorem run_queue_order : ∀ (tr : List Label) (s0 s : Sys), run s0 tr = some s →
    executed_reqs s.hist ++ s.op_queue
      = (executed_reqs s0.hist ++ s0.op_queue) ++ enqueued_reqs tr := by
  intro tr
  induction tr with
  | nil =>
    intro s0 s hrun
    simp only [run, Option.some.injEq] at hrun
    subst hrun
    simp [enqueued_reqs]
  | cons l tr ih =>
    intro s0 s hrun
    simp only [run] at hrun
    rcases hs1 : step s0 l with _ | s1 <;> rw [hs1] at hrun
    · cases hrun
    · rw [ih s1 s hrun, step_queue_order hs1]
      cases l <;> simp [enqueued_reqs, List.append_assoc]

/-- Inversion for `is_insert_req`. -/
theorem is_insert_req_shape {req : Request} (h : is_insert_req (some req) = true) :
    req.1 = OpType.insert ∧
    ∃ u p d st, req.2 = Query.insert_history u p d st := by
  obtain ⟨ot, q⟩ := req
  cases ot <;> cases q <;> simp_all [is_insert_req]

/-- Every step of an insert-only workload preserves `c3_inv`. -/
theorem c3_step {s0 s1 : Sys} {l : Label} (hl : insert_only_label l)
    (hP : c3_inv s0) (h : step s0 l = some s1) : c3_inv s1 := by
  obtain ⟨hwf, hlen, hq⟩ := hP
  cases l with
  | put tid req =>
    simp only [step] at h
    split at h
    · split at h
      · cases h
      · cases h
        refine ⟨hwf, hlen, ?_⟩
        intro o ho
        rcases List.mem_append.mp ho with ho | ho
        · exact hq o ho
        · simp only [List.mem_singleton] at ho
          subst ho
          exact Or.inl hl
    · cases h
  | take tid =>
    simp only [step] at h
    split at h
    · split at h
      · cases h
        exact ⟨hwf, hlen, hq⟩
      · cases h
    · cases h
  | give_up tid =>
    simp only [step] at h
    split at h
    · split at h
      · cases h
        exact ⟨hwf, hlen, hq⟩
      · cases h
    · cases h
  | put_sentinel =>
    simp only [step, Option.some.injEq] at h
    subst h
    refine ⟨hwf, hlen, ?_⟩
    intro o ho
    rcases List.mem_append.mp ho with ho | ho
    · exact hq o ho
    · simp only [List.mem_singleton] at ho
      subst ho
      exact Or.inr rfl
  | work =>
    simp only [step] at h
    split at h
    · split at h
      next req rest heq =>
        cases h
        have hins := hq (some req) (by rw [heq]; exact List.mem_cons_self _ _)
        rcases hins with hins | hins
        · obtain ⟨hot, u, p, d, st, hqq⟩ := is_insert_req_shape hins
          obtain ⟨ot, qq⟩ := req
          simp only at hot hqq
          subst hot
          subst hqq
          refine ⟨worker_handle_wf _ hwf, ?_, ?_⟩
          · by_cases ht : s0.conn.table_exists
            · simp [worker_handle, exec, ht, insert_successes, List.countP_append,
                    List.countP_cons, hlen]
            · simp [worker_handle, exec, ht, insert_successes, List.countP_append,
                    List.countP_cons, hlen]
          · intro o ho
            exact hq o (by rw [heq]; exact List.mem_cons_of_mem _ ho)
        · cases hins
      next rest heq =>
        cases h
        refine ⟨hwf, ?_, ?_⟩
        · simp [insert_successes, List.countP_append, List.countP_cons, hlen]
        · intro o ho
          exact hq o (by rw [heq]; exact List.mem_cons_of_mem _ ho)
      next => cases h
    · cases h

/-- Once the worker has terminated and the shared result queue is empty,
no step revives the worker, refills the result queue, or hands any caller
a payload. -/
theorem dead_worker_step {s0 s1 : Sys} {l : Label}
    (hdead : s0.worker_alive = false) (hq : s0.result_queue = [])
    (h : step s0 l = some s1) :
    s1.worker_alive = false ∧ s1.result_queue = [] ∧
    ∀ i, ok_results s1 i = ok_results s0 i := by
  cases l with
  | put tid req =>
    simp only [step] at h
    split at h
    next c hc =>
      split at h
      · cases h
      · cases h
        refine ⟨hdead, hq, ?_⟩
        intro i
        simp only [ok_results, List.getElem?_set]
        by_cases hti : tid = i
        · subst hti
          have hlt : tid < s0.callers.length := by
            rcases List.getElem?_eq_some.mp hc with ⟨hl, _⟩
            exact hl
          rw [if_pos rfl, if_pos hlt, hc]
        · rw [if_neg hti]
    next => cases h
  | take tid =>
    simp only [step, hq] at h
    rcases hc : s0.callers[tid]? with _ | c <;> rw [hc] at h <;> cases h
  | give_up tid =>
    simp only [step] at h
    split at h
    next c hc =>
      split at h
      · cases h
        refine ⟨hdead, hq, ?_⟩
        intro i
        simp only [ok_results, List.getElem?_set]
        by_cases hti : tid = i
        · subst hti
          have hlt : tid < s0.callers.length := by
            rcases List.getElem?_eq_some.mp hc with ⟨hl, _⟩
            exact hl
          rw [if_pos rfl, if_pos hlt, hc]
          simp [List.countP_append]
        · rw [if_neg hti]
      · cases h
    next => cases h
  | put_sentinel =>
    simp only [step, Option.some.injEq] at h
    subst h
    exact ⟨hdead, hq, fun i => rfl⟩
  | work =>
    rw [step, hdead] at h
    simp at h

/-- After the worker has terminated with an empty result queue, no caller
ever collects another payload, whatever the remaining threads do. -/
theorem dead_worker_no_completion (s0 : Sys) (hd : s0.worker_alive = false)
    (hq : s0.result_queue = []) (tr : List Label) (s : Sys)
    (hrun : run s0 tr = some s) :
    s.worker_alive = false ∧ s.result_queue = [] ∧
    ∀ i, ok_results s i = ok_results s0 i :=
  run_preserves
    (fun x => x.worker_alive = false ∧ x.result_queue = [] ∧
      ∀ i, ok_results x i = ok_results s0 i)
    (fun _ => True)
    (fun _ l t1 _ hP h => by
      obtain ⟨h1, h2, h3⟩ := dead_worker_step hP.1 hP.2.1 h
      exact ⟨h1, h2, fun i => (h3 i).trans (hP.2.2 i)⟩)
    tr s0 s (fun _ _ => trivial) ⟨hd, hq, fun _ => rfl⟩ hrun

/-- C3: for every interleaving of concurrent Gateway insert calls (any
number of callers, any schedule of puts, worker steps, takes and
timeouts), the store's row count equals the number of inserts the worker
executed successfully, and the stored row ids are pairwise distinct: no
row is lost, none is duplicated. -/
theorem serialized_inserts (n : Nat) (tr : List Label) (s : Sys)
    (hins : ∀ l ∈ tr, insert_only_label l)
    (hrun : run (Sys.init db_init n) tr = some s) :
    s.conn.rows.length = insert_successes s.hist ∧
    (s.conn.rows.map Row.id).Nodup := by
  have h0 : c3_inv (Sys.init db_init n) := by
    refine ⟨⟨?_, ?_⟩, ?_, ?_⟩
    · intro r hr
      simp [Sys.init, db_init] at hr
    · simp [Sys.init, db_init]
    · simp [Sys.init, db_init, insert_successes]
    · intro o ho
      simp [Sys.init] at ho
  have hfin := run_preserves c3_inv insert_only_label
    (fun _ _ _ hl hP h => c3_step hl hP h) tr (Sys.init db_init n) s hins h0 hrun
  exact ⟨hfin.2.1, hfin.1.2⟩

/-- Closed instance of `serialized_inserts`: one caller completes one
insert. -/
theorem serialized_inserts_witness :
    run (Sys.init db_init 1)
      [Label.put 0 (OpType.insert, Query.insert_history "a" "label" "x" none),
       Label.work, Label.take 0]
      = some { op_queue := [], result_queue := [],
               conn := { table_exists := true,
                         rows := [{ id := 1, url := "a", print_type := "label",
                                    qr_data := "x", timestamp := 0,
                                    status := "completed" }],
                         next_id := 2, clock := 0 },
               worker_alive := true, conn_closed := false,
               callers := [{ waiting := false,
                             results := [GatewayResult.ok (Value.vnat 1)] }],
               hist := [WorkEvent.executed
                          (OpType.insert,
                           Query.insert_history "a" "label" "x" none)
                          (DbResult.success (Value.vnat 1))] } ∧
    ({ table_exists := true,
       rows := [{ id := 1, url := "a", print_type := "label", qr_data := "x",
                  timestamp := 0, status := "completed" }],
       next_id := 2, clock := 0 } : DB).rows.length
      = insert_successes
          [WorkEvent.executed
             (OpType.insert, Query.insert_history "a" "label" "x" none)
             (DbResult.success (Value.vnat 1))] ∧
    (([{ id := 1, url := "a", print_type := "label", qr_data := "x",
         timestamp := 0, status := "completed" }] : List Row).map Row.id).Nodup := by
  have hrun : run (Sys.init db_init 1)
      [Label.put 0 (OpType.insert, Query.insert_history "a" "label" "x" none),
       Label.work, Label.take 0]
      = some { op_queue := [], result_queue := [],
               conn := { table_exists := true,
                         rows := [{ id := 1, url := "a", print_type := "label",
                                    qr_data := "x", timestamp := 0,
                                    status := "completed" }],
                         next_id := 2, clock := 0 },
               worker_alive := true, conn_closed := false,
               callers := [{ waiting := false,
                             results := [GatewayResult.ok (Value.vnat 1)] }],
               hist := [WorkEvent.executed
                          (OpType.insert,
                           Query.insert_history "a" "label" "x" none)
                          (DbResult.success (Value.vnat 1))] } := by decide
  have hcons := serialized_inserts 1 _ _
    (by intro l hl; fin_cases hl <;> simp [insert_only_label, is_insert_req])
    hrun
  exact ⟨hrun, hcons.1, hcons.2⟩

/-- C4: the worker serves requests in the order they were enqueued — along
any run, the executed requests followed by the still-queued ones are
exactly the enqueued requests, in order (FIFO, no priority, no
reordering); consequently a single caller that inserts a row and then
updates it by the returned id finds the row: the insert returns the new
id and the update reports exactly one affected row. -/
theorem fifo_order_and_insert_then_update (db : DB) (n : Nat)
    (tr : List Label) (s : Sys)
    (hrun : run (Sys.init db n) tr = some s) :
    (executed_reqs s.hist ++ s.op_queue = enqueued_reqs tr) ∧
    (∀ u p d st st2, db.wf → db.table_exists = true →
      ∃ s2 : Sys,
        run (Sys.init db 1)
          [Label.put 0 (OpType.insert, Query.insert_history u p d st),
           Label.work, Label.take 0,
           Label.put 0 (OpType.update, Query.update_status st2 db.next_id),
           Label.work, Label.take 0] = some s2 ∧
        (s2.callers[0]?).map Caller.results
          = some [GatewayResult.ok (Value.vnat db.next_id),
                  GatewayResult.ok (Value.vint 1)]) := by
  constructor
  · have hfin := run_queue_order tr (Sys.init db n) s hrun
    simpa [Sys.init, executed_reqs] using hfin
  · intro u p d st st2 hwf ht
    refine ⟨_, rfl, ?_⟩
    simp [run, step, Sys.init, worker_handle, exec, ht, gateway_of_result,
          Caller.idle, List.replicate, List.countP_append, List.countP_cons]
    intro a ha
    exact Nat.ne_of_lt (hwf.1 a ha)

/-- Closed instance of `fifo_order_and_insert_then_update`: after a
sentinel is enqueued and processed, the executed requests are exactly the
enqueued ones; and the insert-then-update scenario runs on the fresh
store. -/
theorem fifo_order_and_insert_then_update_witness :
    (executed_reqs [WorkEvent.shutdown] ++ [] = enqueued_reqs [Label.put_sentinel, Label.work]) ∧
    (∃ s2 : Sys,
       run (Sys.init db_init 1)
         [Label.put 0 (OpType.insert, Query.insert_history "u" "label" "d" none),
          Label.work, Label.take 0,
          Label.put 0 (OpType.update, Query.update_status "completed" db_init.next_id),
          Label.work, Label.take 0] = some s2 ∧
       (s2.callers[0]?).map Caller.results
         = some [GatewayResult.ok (Value.vnat db_init.next_id),
                 GatewayResult.ok (Value.vint 1)]) := by
  have hrun : run (Sys.init db_init 1) [Label.put_sentinel, Label.work]
      = some { op_queue := [], result_queue := [], conn := db_init,
               worker_alive := false, conn_closed := true,
               callers := [{ waiting := false, results := [] }],
               hist := [WorkEvent.shutdown] } := by decide
  have h := fifo_order_and_insert_then_update db_init 1
    [Label.put_sentinel, Label.work] _ hrun
  exact ⟨h.1, h.2 "u" "label" "d" none "completed"
    ⟨by intro r hr; simp [db_init] at hr, by simp [db_init]⟩ rfl⟩

/-- C9: the sentinel is a request value distinct from every operation
request; when the worker dequeues it, it leaves its loop (terminates),
closes the connection, and executes nothing further; `close` joins the
worker with the bounded timeout 2; and callers are not guaranteed their
in-flight request completes after shutdown is signaled — once the worker
is dead with an empty result queue no caller ever collects another
payload, and a request queued behind the sentinel stays unexecuted. -/
theorem shutdown_sentinel_terminates_worker (s : Sys)
    (rest : List (Option Request))
    (halive : s.worker_alive = true) (hq : s.op_queue = none :: rest) :
    step s Label.work
      = some { s with op_queue := rest, worker_alive := false, conn_closed := true, hist := s.hist ++ [WorkEvent.shutdown] } ∧
    (∀ req : Request, (none : Option Request) ≠ some req) ∧
    (∀ t : Sys, t.worker_alive = false → step t Label.work = none) ∧
    close_join_timeout = 2 ∧
    (∀ t0 : Sys, t0.worker_alive = false → t0.result_queue = [] →
       ∀ tr t, run t0 tr = some t → ∀ i, ok_results t i = ok_results t0 i) ∧
    (∃ t : Sys,
       run (Sys.init db_init 1)
         [Label.put_sentinel, Label.put 0 (OpType.select, Query.select_all),
          Label.work] = some t ∧
       t.worker_alive = false ∧ t.conn_closed = true ∧
       t.op_queue = [some (OpType.select, Query.select_all)] ∧
       t.result_queue = [] ∧ ok_results t 0 = 0) := by
  refine ⟨?_, fun req h => Option.noConfusion h,
          fun t htd => by simp [step, htd], rfl,
          fun t0 h1 h2 tr t hr =>
            (dead_worker_no_completion t0 h1 h2 tr t hr).2.2, ?_⟩
  · simp [step, halive, hq]
  · exact ⟨_, rfl, by decide, by decide, by decide, by decide, by decide⟩

/-- Closed instance of `shutdown_sentinel_terminates_worker`. -/
theorem shutdown_sentinel_terminates_worker_witness :
    step { op_queue := [none], result_queue := [], conn := db_init,
           worker_alive := true, conn_closed := false, callers := [],
           hist := [] } Label.work
      = some { op_queue := [], result_queue := [], conn := db_init,
               worker_alive := false, conn_closed := true, callers := [],
               hist := [WorkEvent.shutdown] } ∧
    close_join_timeout = 2 ∧
    (∃ t : Sys,
       run (Sys.init db_init 1)
         [Label.put_sentinel, Label.put 0 (OpType.select, Query.select_all),
          Label.work] = some t ∧
       t.worker_alive = false ∧ t.conn_closed = true ∧
       t.op_queue = [some (OpType.select, Query.select_all)] ∧
       t.result_queue = [] ∧ ok_results t 0 = 0) :=
  have h := shutdown_sentinel_terminates_worker
    { op_queue := [none], result_queue := [], conn := db_init,
      worker_alive := true, conn_closed := false, callers := [], hist := [] }
    [] rfl rfl
  ⟨h.1, h.2.2.2.1, h.2.2.2.2.2⟩
